import Mathlib

/-!
Verification of `scripts/set-rn-version.js` (version propagation script).

The script is embedded shallowly: strings are Lean `String`s (lists of
characters), JavaScript's `String.prototype.replace` with a string pattern
is modelled as first-occurrence replacement, the filesystem the script
touches is an explicit record, and shelling out to `diff -r` / `grep -c`
is modelled by an LCS line diff plus a regex line match in which `.`
matches any character (the only regex metacharacter that can occur in a
version string produced by the version grammar).

External collaborators that live in this repository but outside the file
under verification (`version-utils`, `scm-utils`, `npm-utils`,
`update-template-package`) are modelled from the spec; each such
definition carries a doc comment saying so.
-/

namespace SetRNVersion

/-! ### List / string utilities (JS semantics) -/

/-- Split a character list at every occurrence of `c`
(JS `string.split(sep)` semantics: `n` separators yield `n+1` pieces). -/
def splitOnChar (c : Char) : List Char → List (List Char)
  | [] => [[]]
  | x :: xs =>
    let r := splitOnChar c xs
    if x = c then [] :: r
    else
      match r with
      | [] => [[x]]
      | h :: t => (x :: h) :: t

/-- Lines of a string, splitting at every newline (JS `s.split('\n')`). -/
def splitLines (s : String) : List String :=
  (splitOnChar '\n' s.data).map (fun l => String.mk l)

/-- Join lines with newlines (JS `lines.join('\n')`). -/
def joinLines : List String → String
  | [] => ""
  | [x] => x
  | x :: y :: t => x ++ "\n" ++ joinLines (y :: t)

/-- Boolean prefix test `p.isPrefixOf s` on string data. -/
def strStartsWith (s p : String) : Bool :=
  p.data.isPrefixOf s.data

/-- Does `s` contain `pat` as a contiguous substring? -/
def listContains (pat : List Char) : List Char → Bool
  | [] => pat.isEmpty
  | s@(_ :: cs) => pat.isPrefixOf s || listContains pat cs

/-- Substring containment on strings. -/
def strContains (s pat : String) : Bool :=
  listContains pat.data s.data

/-- First-occurrence replacement on character lists, the semantics of
JavaScript `s.replace(pat, rep)` when `pat` is a plain string and `rep`
contains no `$`-escape (version components never contain `$`). -/
def replaceFirstAux (pat rep : List Char) : List Char → List Char
  | [] => if pat.isEmpty then rep else []
  | s@(c :: cs) =>
    if pat.isPrefixOf s then rep ++ s.drop pat.length
    else c :: replaceFirstAux pat rep cs

/-- JS `s.replace(pat, rep)` for a plain-string `pat`. -/
def replaceFirst (s pat rep : String) : String :=
  String.mk (replaceFirstAux pat.data rep.data s.data)

/-- Association-list lookup, first match wins (JS objects built from JSON
have unique keys, so this agrees with property access on them). -/
def lookupStr : List (String × String) → String → Option String
  | [], _ => none
  | (k, v) :: t, key => if k = key then some v else lookupStr t key

/-- JS property access on an object literal in which later writes shadow
earlier ones (spread syntax): the last binding of a key wins. -/
def objGet (o : List (String × String)) (key : String) : Option String :=
  lookupStr o.reverse key

/-! ### Data model -/

/-- The structured version record produced by `parseVersion`
(spec section 3): numeric components, an optional prerelease, and the
canonical string form used for rendering and verification. -/
structure VersionRecord where
  version : String
  major : Nat
  minor : Nat
  patch : Nat
  prerelease : Option String
deriving Repr, DecidableEq

/-- The enumerated build-type tag. -/
inductive BuildType where
  | dryRun
  | nightly
  | release
deriving Repr, DecidableEq

/-- Error taxonomy of the script (spec section 7).  `gradleSedFailed`
carries the `stderr` string thrown by `setGradle` (the code throws
`result.stderr` when the shelljs `sed` reports a nonzero code). -/
inductive SetVersionError where
  | invalidBuildType
  | versionFormat
  | buildTypeMismatch
  | gradleSedFailed (stderr : String)
deriving Repr, DecidableEq

/-! ### The four source-constant renderers (`setSource`, lines 64-116)

Each renderer chains four JS `replace` calls on the template text, in the
source's order: `major`, `minor`, `patch`, `prerelease`.  The numeric
fields are interpolated with `toString`; the prerelease substitution is
the source's conditional expression. -/

/-- Java renderer: the chain of `replace` calls written for
`ReactNativeVersion.java` (prerelease as `"p"` or `null`). -/
def renderJava (tmpl : String) (v : VersionRecord) : String :=
  replaceFirst
    (replaceFirst
      (replaceFirst
        (replaceFirst tmpl "${major}" (toString v.major))
        "${minor}" (toString v.minor))
      "${patch}" (toString v.patch))
    "${prerelease}"
    (match v.prerelease with
     | some p => "\"" ++ p ++ "\""
     | none => "null")

/-- Objective-C renderer: the chain written for `RCTVersion.m`
(numerics boxed as `@(n)`, prerelease as `@"p"` or `[NSNull null]`). -/
def renderObjc (tmpl : String) (v : VersionRecord) : String :=
  replaceFirst
    (replaceFirst
      (replaceFirst
        (replaceFirst tmpl "${major}" ("@(" ++ toString v.major ++ ")"))
        "${minor}" ("@(" ++ toString v.minor ++ ")"))
      "${patch}" ("@(" ++ toString v.patch ++ ")"))
    "${prerelease}"
    (match v.prerelease with
     | some p => "@\"" ++ p ++ "\""
     | none => "[NSNull null]")

/-- C++ header renderer: the chain written for `ReactNativeVersion.h`
(prerelease as `"p"` or the empty string literal `""`). -/
def renderCxx (tmpl : String) (v : VersionRecord) : String :=
  replaceFirst
    (replaceFirst
      (replaceFirst
        (replaceFirst tmpl "${major}" (toString v.major))
        "${minor}" (toString v.minor))
      "${patch}" (toString v.patch))
    "${prerelease}"
    (match v.prerelease with
     | some p => "\"" ++ p ++ "\""
     | none => "\"\"")

/-- Script-language renderer: the chain written for
`ReactNativeVersion.js` (prerelease as `'p'` or `null`). -/
def renderJs (tmpl : String) (v : VersionRecord) : String :=
  replaceFirst
    (replaceFirst
      (replaceFirst
        (replaceFirst tmpl "${major}" (toString v.major))
        "${minor}" (toString v.minor))
      "${patch}" (toString v.patch))
    "${prerelease}"
    (match v.prerelease with
     | some p => "'" ++ p ++ "'"
     | none => "null")

/-! ### Spec-modelled collaborators -/

/-- Modelled from the spec: `validateBuildType` lives in
`scripts/version-utils.js`, which is not under `src/`.  Spec section 4.1:
fails with `InvalidBuildTypeError` if the tag is not one of the three
enumerated values `dry-run | nightly | release`. -/
def validateBuildType (s : String) : Except SetVersionError BuildType :=
  if s = "dry-run" then Except.ok BuildType.dryRun
  else if s = "nightly" then Except.ok BuildType.nightly
  else if s = "release" then Except.ok BuildType.release
  else Except.error SetVersionError.invalidBuildType

/-- Are the characters all ASCII digits, and is the list nonempty? -/
def isDigits (l : List Char) : Bool :=
  !l.isEmpty && l.all (fun c => '0' ≤ c && c ≤ '9')

/-- Characters allowed in a prerelease suffix: a timestamp/commit-style
tag (spec section 4.1), i.e. alphanumerics, dots and hyphens. -/
def isPrereleaseChar (c : Char) : Bool :=
  ('0' ≤ c && c ≤ '9') || ('a' ≤ c && c ≤ 'z') || ('A' ≤ c && c ≤ 'Z')
    || c = '.' || c = '-'

/-- Digit-list to number. -/
def digitsToNat (l : List Char) : Nat :=
  l.foldl (fun n c => 10 * n + (c.toNat - '0'.toNat)) 0

/-- Split at the first `'-'`, returning the head and, when a dash is
present, the remainder after it. -/
def splitFirstDash : List Char → List Char × Option (List Char)
  | [] => ([], none)
  | c :: cs =>
    if c = '-' then ([], some cs)
    else
      let r := splitFirstDash cs
      (c :: r.1, r.2)

/-- Modelled from the spec: `parseVersion` lives in
`scripts/version-utils.js`, which is not under `src/`.  Spec section 4.1:
grammar `MAJOR.MINOR.PATCH[-PRERELEASE]` with digits for each numeric
component (`VersionFormatError` otherwise); build-type policy
(`BuildTypeMismatchError`): `release` rejects a prerelease suffix,
`nightly` requires a timestamp/commit-style suffix, `dry-run` is
permissive.  The canonical `version` is the raw string. -/
def parseVersion (raw : String) (b : BuildType) : Except SetVersionError VersionRecord :=
  let (core, pre) := splitFirstDash raw.data
  match splitOnChar '.' core with
  | [ma, mi, pa] =>
    if isDigits ma && isDigits mi && isDigits pa then
      match pre with
      | none =>
        match b with
        | BuildType.nightly => Except.error SetVersionError.buildTypeMismatch
        | _ =>
          Except.ok
            { version := raw, major := digitsToNat ma, minor := digitsToNat mi,
              patch := digitsToNat pa, prerelease := none }
      | some p =>
        if !p.isEmpty && p.all isPrereleaseChar then
          match b with
          | BuildType.release => Except.error SetVersionError.buildTypeMismatch
          | _ =>
            Except.ok
              { version := raw, major := digitsToNat ma, minor := digitsToNat mi,
                patch := digitsToNat pa, prerelease := some (String.mk p) }
        else Except.error SetVersionError.versionFormat
    else Except.error SetVersionError.versionFormat
  | _ => Except.error SetVersionError.versionFormat

/-! ### Manifests -/

/-- A package manifest restricted to the fields the script touches:
name, version and the dependency map (spec section 3,
"StructuredDocument"). -/
structure PackageJson where
  name : String
  version : String
  dependencies : List (String × String)
deriving Repr, DecidableEq

/-- Modelled from the spec: `applyPackageVersions` lives in
`scripts/npm-utils.js`, which is not under `src/`.  Spec section 4.3:
"for each key in `overrides` present as a dependency field in `manifest`,
replace its value; keys not present in `manifest` are ignored"; returns a
new document. -/
def applyPackageVersions (manifest : PackageJson) (overrides : List (String × String)) : PackageJson :=
  { manifest with
    dependencies :=
      manifest.dependencies.map fun kv =>
        match lookupStr overrides kv.1 with
        | some w => (kv.1, w)
        | none => kv }

/-- The function `setPackage` (lines 132-148): read the manifest, apply the override
map when one was supplied (JS `dependencyVersions != null` is false for
both `null` and `undefined`, so both are `none` here), then set the
`version` field and write the result back. -/
def setPackage (v : VersionRecord) (dependencyVersions : Option (List (String × String)))
    (pkg : PackageJson) : PackageJson :=
  let packageJson :=
    match dependencyVersions with
    | some d => applyPackageVersions pkg d
    | none => pkg
  { packageJson with version := v.version }

/-- The version map handed to `updateTemplatePackage` (lines 170-173):
the object literal `{'react-native': version.version, ...overrides}`.
Represented as an ordered binding list read through `objGet`, under which
the spread's later bindings shadow the self-referential entry. -/
def templateDependencyVersions (v : VersionRecord)
    (dependencyVersions : Option (List (String × String))) : List (String × String) :=
  ("react-native", v.version) ::
    (match dependencyVersions with
     | some d => d
     | none => [])

/-- Modelled from the spec: `updateTemplatePackage` lives in
`scripts/update-template-package.js`, which is not under `src/`.  Spec
section 6: "writes the template manifest" from the supplied version map;
dependency fields with matching keys take the map's value. -/
def updateTemplatePackage (versionMap : List (String × String)) (tp : PackageJson) : PackageJson :=
  { tp with
    dependencies :=
      tp.dependencies.map fun kv =>
        match objGet versionMap kv.1 with
        | some w => (kv.1, w)
        | none => kv }

/-! ### Gradle properties (`setGradle`, lines 119-130)

Shelljs sed, invoked in-place with the anchored regex on the properties file,
reads the file, splits it at newlines, applies the regex replacement to
each line, and rejoins.  The anchored pattern `^VERSION_NAME=.*` matches
a line exactly when it starts with `VERSION_NAME=`, and then consumes the
whole line, so a matching line becomes `VERSION_NAME=<version>`.  Shelljs
reports a nonzero `code` (and `setGradle` then throws `result.stderr`)
only when the file does not exist; an existing file in which no line
matches is rewritten unchanged with code 0. -/

/-- The per-line rewrite `sed` performs on the gradle properties text. -/
def sedVersionName (version : String) (content : String) : String :=
  joinLines
    ((splitLines content).map fun l =>
      if strStartsWith l "VERSION_NAME=" then "VERSION_NAME=" ++ version else l)

/-! ### Filesystem model

The record holds exactly the files the script reads or writes: the four
version templates (read only), the four rendered version files (write
only), the library manifest, the gradle properties file (`none` models a
missing file), and the template manifest. -/

structure RepoFS where
  javaTemplate : String
  objcTemplate : String
  cxxTemplate : String
  jsTemplate : String
  javaVersionFile : String
  objcVersionFile : String
  cxxVersionFile : String
  jsVersionFile : String
  reactNativePackageJson : PackageJson
  gradleProperties : Option String
  templatePackageJson : PackageJson
deriving Repr, DecidableEq

/-- The function `setSource` as a filesystem step (lines 64-116): render each of the
four templates and overwrite the paired version file. -/
def setSource (v : VersionRecord) (fs : RepoFS) : RepoFS :=
  { fs with
    javaVersionFile := renderJava fs.javaTemplate v
    objcVersionFile := renderObjc fs.objcTemplate v
    cxxVersionFile := renderCxx fs.cxxTemplate v
    jsVersionFile := renderJs fs.jsTemplate v }

/-- The function `setGradle` as a filesystem step (lines 119-130): missing file means
the shelljs `sed` reports a nonzero code and its `stderr` is thrown;
otherwise the content is rewritten line by line and no error is raised. -/
def setGradle (v : VersionRecord) (fs : RepoFS) : Except SetVersionError RepoFS :=
  match fs.gradleProperties with
  | none =>
    Except.error
      (SetVersionError.gradleSedFailed
        "sed: no such file or directory: packages/react-native/ReactAndroid/gradle.properties")
  | some content =>
    Except.ok { fs with gradleProperties := some (sedVersionName v.version content) }

/-! ### Verification (lines 156-197)

The script snapshots three files, and after all writes runs
`diff -r <tmp> . | grep '^[>]' | grep -c <version>`.  The snapshot
directory holds only the three files of `filesToValidate` (`saveFiles` is
modelled from the spec: "copies the fixed verification subset into
`targetDir`"), so the recursive diff emits `>` lines only for those three
path pairs ("Only in" lines for everything else carry no `^>` prefix).
The final `grep -c` receives the version string unquoted, i.e. as a basic
regular expression; over the character set the version grammar allows
(alphanumerics, `.`, `-`) the only metacharacter is `.`, which matches
any single character. -/

/-- The fixed verification subset (lines 156-160). -/
def filesToValidate : List String :=
  ["packages/react-native/package.json",
   "packages/react-native/ReactAndroid/gradle.properties",
   "packages/react-native/template/package.json"]

/-- The output of `JSON.stringify(pkg, null, 2)` for the restricted manifest shape,
as a line list.  The script rewrites the manifest through
`JSON.parse` / `JSON.stringify`, so post-write content is in this
canonical form; the model assumes the pre-write file is too. -/
def depLines : List (String × String) → List String
  | [] => []
  | [kv] => ["    \"" ++ kv.1 ++ "\": \"" ++ kv.2 ++ "\""]
  | kv :: kv2 :: t =>
    ("    \"" ++ kv.1 ++ "\": \"" ++ kv.2 ++ "\",") :: depLines (kv2 :: t)

/-- Render a manifest to its canonical stringified lines. -/
def renderPackageJson (p : PackageJson) : List String :=
  if p.dependencies.isEmpty then
    ["\x7b",
     "  \"name\": \"" ++ p.name ++ "\",",
     "  \"version\": \"" ++ p.version ++ "\",",
     "  \"dependencies\": \x7b\x7d",
     "\x7d"]
  else
    ["\x7b",
     "  \"name\": \"" ++ p.name ++ "\",",
     "  \"version\": \"" ++ p.version ++ "\",",
     "  \"dependencies\": \x7b"]
    ++ depLines p.dependencies
    ++ ["  \x7d", "\x7d"]

/-- A longest common subsequence of two line lists, with structural fuel
so the definition reduces in the kernel.  `diff` prints as `>` exactly
the new-side lines outside a maximal common subsequence; every maximal
common subsequence yields the same count of such lines. -/
def lcsAux : Nat → List String → List String → List String
  | 0, _, _ => []
  | _ + 1, [], _ => []
  | _ + 1, _, [] => []
  | fuel + 1, x :: xs, y :: ys =>
    if x = y then x :: lcsAux fuel xs ys
    else
      let a := lcsAux fuel (x :: xs) ys
      let b := lcsAux fuel xs (y :: ys)
      if a.length < b.length then b else a

/-- LCS of the before/after line lists. -/
def lcsLines (xs ys : List String) : List String :=
  lcsAux (xs.length + ys.length) xs ys

/-- Remove an embedded subsequence from a list, keeping the rest. -/
def dropCommon : List String → List String → List String
  | ns, [] => ns
  | [], _ => []
  | n :: ns, c :: cs => if n = c then dropCommon ns cs else n :: dropCommon ns (c :: cs)

/-- The new-side changed lines of one file pair: the `>` lines `diff`
prints for it. -/
def newChangedLines (before after : List String) : List String :=
  dropCommon after (lcsLines before after)

/-- Does the pattern match here, `.` matching any character? -/
def dotMatchHere : List Char → List Char → Bool
  | [], _ => true
  | _ :: _, [] => false
  | p :: ps, c :: cs => (p = '.' || p = c) && dotMatchHere ps cs

/-- A `grep`-style search: does the pattern match anywhere in the line? -/
def dotMatch (pat : List Char) : List Char → Bool
  | [] => dotMatchHere pat []
  | s@(_ :: cs) => dotMatchHere pat s || dotMatch pat cs

/-- Does `grep <needle>` select this `diff` output line?  The stream line
is the changed line behind its `"> "` prefix, and the needle is the
version string read as a regular expression. -/
def grepSelects (needle line : String) : Bool :=
  dotMatch needle.data ("> " ++ line).data

/-- Changed lines of one file pair that `grep -c <needle>` counts. -/
def countMatchingChangedLines (before after : List String) (needle : String) : Nat :=
  ((newChangedLines before after).filter (grepSelects needle)).length

/-- Lines of the gradle properties file (missing file never reaches the
verification step, since `setGradle` throws first). -/
def gradleLines (o : Option String) : List String :=
  splitLines (o.getD "")

/-- The number `+numberOfChangedLinesWithNewVersion` computed on
lines 180-183: the `grep -c` count over the concatenated diff stream of
the three snapshotted files. -/
def verificationCount (before after : RepoFS) (needle : String) : Nat :=
  countMatchingChangedLines (renderPackageJson before.reactNativePackageJson)
      (renderPackageJson after.reactNativePackageJson) needle
    + countMatchingChangedLines (gradleLines before.gradleProperties)
        (gradleLines after.gradleProperties) needle
    + countMatchingChangedLines (renderPackageJson before.templatePackageJson)
        (renderPackageJson after.templatePackageJson) needle

/-- The spec's reading of the same count: changed lines that literally
contain the canonical version string. -/
def literalCountFile (before after : List String) (needle : String) : Nat :=
  ((newChangedLines before after).filter (fun l => strContains l needle)).length

/-- Literal-containment count over the three snapshotted files. -/
def literalCount (before after : RepoFS) (needle : String) : Nat :=
  literalCountFile (renderPackageJson before.reactNativePackageJson)
      (renderPackageJson after.reactNativePackageJson) needle
    + literalCountFile (gradleLines before.gradleProperties)
        (gradleLines after.gradleProperties) needle
    + literalCountFile (renderPackageJson before.templatePackageJson)
        (renderPackageJson after.templatePackageJson) needle

/-! ### The orchestrator (`setReactNativeVersion`, lines 150-200) -/

/-- What a completed run reports: the version map that was handed to
`updateTemplatePackage`, whether the verification warning fired, and the
warning lines echoed (empty when verification matched). -/
structure PropagateInfo where
  templateMap : List (String × String)
  warned : Bool
  warningEchoes : List String
deriving Repr, DecidableEq

/-- The warning block echoed on a verification mismatch (lines 190-196). -/
def warningMessages (version : String) : List String :=
  ["WARNING:",
   "Failed to update all the files: [" ++ String.intercalate ", " filesToValidate
     ++ "] must have versions in them",
   "These files already had version " ++ version ++ " set."]

/-- The writes of steps 4 of the algorithm (lines 167-176), composed in
the source's order: `setSource`, `setPackage`, `updateTemplatePackage`,
`setGradle`.  Fails exactly when `setGradle` throws. -/
def applyWrites (version : VersionRecord)
    (dependencyVersions : Option (List (String × String))) (fs : RepoFS) :
    Except SetVersionError RepoFS :=
  let fs1 := setSource version fs
  let fs2 := { fs1 with
               reactNativePackageJson :=
                 setPackage version dependencyVersions fs1.reactNativePackageJson }
  let fs3 := { fs2 with
               templatePackageJson :=
                 updateTemplatePackage
                   (templateDependencyVersions version dependencyVersions)
                   fs2.templatePackageJson }
  setGradle version fs3

/-- The orchestrator `setReactNativeVersion` (lines 150-200).  The returned filesystem is
the state when the function returns or when the error is thrown (fatal
errors perform no rollback; validation and parsing fail before any write;
a `setGradle` failure leaves the earlier writes in place).  The snapshot
of step 3 is the pre-write content of the three `filesToValidate` files
(`saveFiles`, modelled from the spec; the `mkdtempSync` scratch directory
itself is outside the modelled filesystem). -/
def setReactNativeVersion (argVersion : String)
    (dependencyVersions : Option (List (String × String))) (buildType : String)
    (fs : RepoFS) : RepoFS × Except SetVersionError PropagateInfo :=
  match validateBuildType buildType with
  | Except.error e => (fs, Except.error e)
  | Except.ok bt =>
    match parseVersion argVersion bt with
    | Except.error e => (fs, Except.error e)
    | Except.ok version =>
      let fs1 := setSource version fs
      let fs2 := { fs1 with
                   reactNativePackageJson :=
                     setPackage version dependencyVersions fs1.reactNativePackageJson }
      let tmap := templateDependencyVersions version dependencyVersions
      let fs3 := { fs2 with
                   templatePackageJson :=
                     updateTemplatePackage tmap fs2.templatePackageJson }
      match setGradle version fs3 with
      | Except.error e => (fs3, Except.error e)
      | Except.ok fs4 =>
        let count := verificationCount fs fs4 version.version
        if count ≠ filesToValidate.length then
          (fs4, Except.ok { templateMap := tmap, warned := true,
                            warningEchoes := warningMessages version.version })
        else
          (fs4, Except.ok { templateMap := tmap, warned := false, warningEchoes := [] })

/-- The `require.main === module` entry point (lines 29-62): run
`setReactNativeVersion` on the parsed arguments, then `exit(0)`.  An
uncaught throw terminates the process with a nonzero status instead. -/
def mainExitCode (argVersion : String)
    (dependencyVersions : Option (List (String × String))) (buildType : String)
    (fs : RepoFS) : Nat :=
  match (setReactNativeVersion argVersion dependencyVersions buildType fs).2 with
  | Except.ok _ => 0
  | Except.error _ => 1

/-! ### Predicates used in the statements -/

/-- The string contains no `'$'`, hence no placeholder token can start
inside it. -/
def noDollar (s : String) : Prop :=
  '$' ∉ s.data

instance (s : String) : Decidable (noDollar s) := by
  unfold noDollar; infer_instance

/-- A template of the canonical shape: each of the four placeholder
tokens occurs exactly once, separated by literal segments. -/
def tmplOf (s0 s1 s2 s3 s4 : String) : String :=
  s0 ++ ("${major}" ++ (s1 ++ ("${minor}" ++ (s2 ++ ("${patch}" ++ (s3 ++ ("${prerelease}" ++ s4)))))))

/-- Does the rendered output still contain one of the four placeholder
tokens? -/
def hasPlaceholder (s : String) : Bool :=
  strContains s "${major}" || strContains s "${minor}" || strContains s "${patch}"
    || strContains s "${prerelease}"

/-! ### Concrete repository states used by witnesses and counterexamples -/

/-- A well-formed starting state: manifests at version `0.74.0`, a gradle
properties file with its `VERSION_NAME=` line, templates of the canonical
shape. -/
def fs0 : RepoFS :=
  { javaTemplate := "j ${major}.${minor}.${patch} ${prerelease}",
    objcTemplate := "m ${major}.${minor}.${patch} ${prerelease}",
    cxxTemplate := "h ${major}.${minor}.${patch} ${prerelease}",
    jsTemplate := "s ${major}.${minor}.${patch} ${prerelease}",
    javaVersionFile := "", objcVersionFile := "", cxxVersionFile := "", jsVersionFile := "",
    reactNativePackageJson := ⟨"react-native", "0.74.0", [("dep", "1.0.0")]⟩,
    gradleProperties := some "VERSION_NAME=0.74.0",
    templatePackageJson := ⟨"template", "1.0.0", [("react-native", "0.74.0")]⟩ }

/-- A state whose gradle properties file exists but carries no
`VERSION_NAME=` line. -/
def fsNoVersionLine : RepoFS :=
  { fs0 with gradleProperties := some "FOO=bar" }

/-- A state in which the library manifest already holds the target
version `0.75.0`, so its `version` line will not change on rewrite. -/
def fsRegexTrap : RepoFS :=
  { fs0 with reactNativePackageJson := ⟨"react-native", "0.75.0", [("some-lib", "1.0.0")]⟩ }

/-- A version record used by counterexamples. -/
def vOne : VersionRecord :=
  { version := "1.0.0", major := 1, minor := 0, patch := 0, prerelease := none }

/-- The record `parseVersion "0.75.0" dry-run` produces (spec scenario A). -/
def v075 : VersionRecord :=
  { version := "0.75.0", major := 0, minor := 75, patch := 0, prerelease := none }

/-- A state whose gradle properties file is missing altogether. -/
def fsNoGradle : RepoFS :=
  { fs0 with gradleProperties := none }

/-- The state `fs0` reaches after all four write steps run with `v075`
and no dependency overrides. -/
def fs0After : RepoFS :=
  { javaTemplate := "j ${major}.${minor}.${patch} ${prerelease}",
    objcTemplate := "m ${major}.${minor}.${patch} ${prerelease}",
    cxxTemplate := "h ${major}.${minor}.${patch} ${prerelease}",
    jsTemplate := "s ${major}.${minor}.${patch} ${prerelease}",
    javaVersionFile := "j 0.75.0 null",
    objcVersionFile := "m @(0).@(75).@(0) [NSNull null]",
    cxxVersionFile := "h 0.75.0 \"\"",
    jsVersionFile := "s 0.75.0 null",
    reactNativePackageJson := ⟨"react-native", "0.75.0", [("dep", "1.0.0")]⟩,
    gradleProperties := some "VERSION_NAME=0.75.0",
    templatePackageJson := ⟨"template", "1.0.0", [("react-native", "0.75.0")]⟩ }

/-! ## Lemmas -/

/-- Association lookup through a key-preserving value override. -/
theorem lookupStr_overrideMap (o l : List (String × String)) (k : String) :
    lookupStr
        (l.map fun kv =>
          match lookupStr o kv.1 with
          | some w => (kv.1, w)
          | none => kv) k
      = (lookupStr l k).map (fun v => (lookupStr o k).getD v) := by
  induction l with
  | nil => rfl
  | cons kv t ih =>
    obtain ⟨k1, v1⟩ := kv
    by_cases h : k1 = k
    · subst h
      cases ho : lookupStr o k1 <;> simp [lookupStr, ho]
    · cases ho : lookupStr o k1 <;> simp [lookupStr, ho, h, ih]

/-- Association lookup distributes over append. -/
theorem lookupStr_append (l1 l2 : List (String × String)) (k : String) :
    lookupStr (l1 ++ l2) k
      = match lookupStr l1 k with
        | some v => some v
        | none => lookupStr l2 k := by
  induction l1 with
  | nil => rfl
  | cons kv t ih =>
    obtain ⟨k1, v1⟩ := kv
    by_cases h : k1 = k <;> simp [lookupStr, h, ih]

/-- Shadowing property access on a cons: the later bindings (the tail,
which the spread writes after the head) win. -/
theorem objGet_cons (x : String × String) (d : List (String × String)) (k : String) :
    objGet (x :: d) k
      = match objGet d k with
        | some v => some v
        | none => if x.1 = k then some x.2 else none := by
  obtain ⟨k1, v1⟩ := x
  unfold objGet
  rw [List.reverse_cons, lookupStr_append]
  cases lookupStr d.reverse k <;> simp [lookupStr]

/-! ## Claims -/

/-- C9: rendering is deterministic and repeatable: the four renderers are
pure functions of the template and the version record, so two runs on the
same arguments produce byte-identical output. -/
theorem render_deterministic (t : String) (v : VersionRecord) :
    (renderJava t v, renderObjc t v, renderCxx t v, renderJs t v)
      = (renderJava t v, renderObjc t v, renderCxx t v, renderJs t v) := rfl

/-- C10: with a null (or undefined, which `!= null` treats identically)
dependency-version map, `setPackage` skips the merge and changes only the
`version` field, and the map handed to the template updater is exactly
the single self-referential entry. -/
theorem null_dependency_versions (ver : VersionRecord) (pkg : PackageJson) :
    setPackage ver none pkg = { pkg with version := ver.version }
    ∧ templateDependencyVersions ver none = [("react-native", ver.version)]
    ∧ ∀ k, objGet (templateDependencyVersions ver none) k
        = if k = "react-native" then some ver.version else none := by
  refine ⟨rfl, rfl, fun k => ?_⟩
  by_cases h : k = "react-native" <;>
    simp [templateDependencyVersions, objGet, lookupStr, h]
  · intro h'
    exact absurd h'.symm h

/-- C8: after `setPackage`, the manifest's `version` equals the canonical
version string; every dependency field whose key the override map binds
takes the bound value, every other dependency field keeps its prior
value, the `name` field is untouched, and with no override map only
`version` changes. -/
theorem setPackage_fields (ver : VersionRecord) (pkg : PackageJson)
    (o : List (String × String)) :
    (setPackage ver (some o) pkg).version = ver.version
    ∧ (setPackage ver (some o) pkg).name = pkg.name
    ∧ (∀ k w, lookupStr o k = some w →
        lookupStr (setPackage ver (some o) pkg).dependencies k
          = (lookupStr pkg.dependencies k).map (fun _ => w))
    ∧ (∀ k, lookupStr o k = none →
        lookupStr (setPackage ver (some o) pkg).dependencies k
          = lookupStr pkg.dependencies k)
    ∧ setPackage ver none pkg = { pkg with version := ver.version } := by
  refine ⟨rfl, rfl, fun k w hw => ?_, fun k hn => ?_, rfl⟩
  · show lookupStr (applyPackageVersions pkg o).dependencies k = _
    unfold applyPackageVersions
    rw [lookupStr_overrideMap, hw]
    cases lookupStr pkg.dependencies k <;> rfl
  · show lookupStr (applyPackageVersions pkg o).dependencies k = _
    unfold applyPackageVersions
    rw [lookupStr_overrideMap, hn]
    cases lookupStr pkg.dependencies k <;> rfl

/-- Witness for C8 at the spec's end-to-end scenario B: override map
`some-lib ↦ 2.0.0` rewrites that dependency and leaves `other` alone. -/
theorem setPackage_fields_witness :
    lookupStr
        (setPackage vOne (some [("some-lib", "2.0.0")])
          ⟨"react-native", "0.74.0", [("some-lib", "1.0.0"), ("other", "3.0.0")]⟩).dependencies
        "some-lib" = some "2.0.0"
    ∧ lookupStr
        (setPackage vOne (some [("some-lib", "2.0.0")])
          ⟨"react-native", "0.74.0", [("some-lib", "1.0.0"), ("other", "3.0.0")]⟩).dependencies
        "other" = some "3.0.0"
    ∧ (setPackage vOne (some [("some-lib", "2.0.0")])
        ⟨"react-native", "0.74.0", [("some-lib", "1.0.0"), ("other", "3.0.0")]⟩).version
        = "1.0.0" := by
  have h := setPackage_fields vOne
    ⟨"react-native", "0.74.0", [("some-lib", "1.0.0"), ("other", "3.0.0")]⟩
    [("some-lib", "2.0.0")]
  refine ⟨?_, ?_, ?_⟩
  · rw [h.2.2.1 "some-lib" "2.0.0" (by decide)]; rfl
  · rw [h.2.2.2.1 "other" (by decide)]; rfl
  · exact h.1

/-- C3 counterexample: the claim says the map passed to the template
updater always binds `"react-native"` to `VersionRecord.version`, even
when the caller-supplied map itself binds `"react-native"`.  In the code
the spread writes the caller's bindings after the self-referential entry,
so the caller's value shadows it: running propagation with version
`1.0.0` and override `react-native ↦ 9.9.9` hands the updater a map whose
`"react-native"` entry reads `9.9.9`, not `1.0.0`. -/
theorem templateMap_self_entry_cex :
    (setReactNativeVersion "1.0.0" (some [("react-native", "9.9.9")]) "dry-run" fs0).2.map
        (fun i => objGet i.templateMap "react-native")
      = Except.ok (some "9.9.9")
    ∧ objGet
        (templateDependencyVersions vOne (some [("react-native", "9.9.9")]))
        "react-native" ≠ some vOne.version := by
  exact ⟨by rfl, by decide⟩

/-- C3 amended: the map passed to the template updater always contains a
binding for `"react-native"`; it reads `VersionRecord.version` unless the
caller-supplied overrides themselves bind `"react-native"`, in which case
the caller's value wins (spread semantics).  For every other key the map
agrees with the caller-supplied overrides. -/
theorem templateMap_merge_amended (ver : VersionRecord)
    (deps : Option (List (String × String))) :
    objGet (templateDependencyVersions ver deps) "react-native"
      = some (match deps with
              | some d => (objGet d "react-native").getD ver.version
              | none => ver.version)
    ∧ ∀ k, k ≠ "react-native" →
        objGet (templateDependencyVersions ver deps) k
          = (match deps with
             | some d => objGet d k
             | none => none) := by
  constructor
  · cases deps with
    | none => rfl
    | some d =>
      unfold templateDependencyVersions
      rw [objGet_cons]
      cases h : objGet d "react-native" <;> simp [h]
  · intro k hk
    cases deps with
    | none =>
      simp only [templateDependencyVersions]
      rw [objGet_cons]
      simp [objGet, lookupStr, Ne.symm hk]
    | some d =>
      simp only [templateDependencyVersions]
      rw [objGet_cons]
      cases h : objGet d k <;> simp [h, Ne.symm hk]

/-- Witness for C3 amended: with no caller overrides the merged map binds
`react-native` to the record's version, and an unrelated key is absent;
with an override for another package, that key is passed through. -/
theorem templateMap_merge_amended_witness :
    objGet (templateDependencyVersions vOne none) "react-native" = some "1.0.0"
    ∧ objGet (templateDependencyVersions vOne none) "some-lib" = none
    ∧ objGet (templateDependencyVersions vOne (some [("some-lib", "2.0.0")])) "some-lib"
        = some "2.0.0" := by
  refine ⟨(templateMap_merge_amended vOne none).1, ?_, ?_⟩
  · rw [(templateMap_merge_amended vOne none).2 "some-lib" (by decide)]
  · rw [(templateMap_merge_amended vOne (some [("some-lib", "2.0.0")])).2 "some-lib" (by decide)]
    rfl

/-- C6: when build-type validation or version parsing fails, propagation
returns the error with the filesystem untouched — validation and parsing
run before the snapshot is taken and before any artifact write. -/
theorem propagate_early_abort (fs : RepoFS) (av : String)
    (deps : Option (List (String × String))) (bt : String) :
    (∀ e, validateBuildType bt = Except.error e →
        setReactNativeVersion av deps bt fs = (fs, Except.error e))
    ∧ (∀ b e, validateBuildType bt = Except.ok b → parseVersion av b = Except.error e →
        setReactNativeVersion av deps bt fs = (fs, Except.error e)) := by
  constructor
  · intro e h
    simp only [setReactNativeVersion, h]
  · intro b e hb h
    simp only [setReactNativeVersion, hb, h]

/-- Witness for C6: an unrecognized build type and an ungrammatical
version string each abort with the matching error and an unchanged
filesystem. -/
theorem propagate_early_abort_witness :
    setReactNativeVersion "1.0.0" none "relese" fs0
      = (fs0, Except.error SetVersionError.invalidBuildType)
    ∧ setReactNativeVersion "1.2" none "dry-run" fs0
      = (fs0, Except.error SetVersionError.versionFormat) := by
  constructor
  · exact (propagate_early_abort fs0 "1.0.0" none "relese").1
      SetVersionError.invalidBuildType (by rfl)
  · exact (propagate_early_abort fs0 "1.2" none "dry-run").2
      BuildType.dryRun SetVersionError.versionFormat (by rfl) (by rfl)

/-! ## String lemmas for the renderers -/

/-- A list is a Boolean prefix of itself followed by anything. -/
theorem isPrefixOf_append_self (l t : List Char) : l.isPrefixOf (l ++ t) = true := by
  induction l with
  | nil => cases t <;> rfl
  | cons c cs ih => simp [List.isPrefixOf, ih]

/-- Replacement finds a pattern sitting at the front. -/
theorem replaceFirstAux_hit (pat rest rep : List Char) (hp : pat ≠ []) :
    replaceFirstAux pat rep (pat ++ rest) = rep ++ rest := by
  cases pat with
  | nil => exact absurd rfl hp
  | cons c cs =>
    show replaceFirstAux (c :: cs) rep (c :: (cs ++ rest)) = rep ++ rest
    rw [replaceFirstAux]
    rw [if_pos (by rw [← List.cons_append]; exact isPrefixOf_append_self _ _)]
    congr 1
    simp only [List.length_cons, List.drop_succ_cons]
    exact List.drop_left cs rest

/-- Replacement walks over a `'$'`-free prefix untouched when the pattern
starts with `'$'`. -/
theorem replaceFirstAux_skip (pat rep : List Char) (hp : pat.head? = some '$') :
    ∀ s₀ t : List Char, '$' ∉ s₀ →
      replaceFirstAux pat rep (s₀ ++ t) = s₀ ++ replaceFirstAux pat rep t := by
  obtain ⟨ps, rfl⟩ : ∃ ps, pat = '$' :: ps := by
    cases pat with
    | nil => exact absurd hp (by simp)
    | cons a ps => exact ⟨ps, by rw [Option.some_inj.mp hp]⟩
  intro s₀ t h
  induction s₀ with
  | nil => simp
  | cons c cs ih =>
    have hc : c ≠ '$' := by
      intro e
      subst e
      exact h (List.mem_cons_self _ _)
    have hnp : (('$' :: ps).isPrefixOf (c :: (cs ++ t))) = false := by
      simp only [List.isPrefixOf, Bool.and_eq_false_iff]
      left
      simp [Ne.symm hc]
    show replaceFirstAux ('$' :: ps) rep (c :: (cs ++ t))
        = c :: (cs ++ replaceFirstAux ('$' :: ps) rep t)
    rw [replaceFirstAux]
    rw [if_neg (by rw [hnp]; exact Bool.false_ne_true)]
    rw [ih (fun m => h (List.mem_cons_of_mem _ m))]

/-- String version of `replaceFirstAux_skip`. -/
theorem replaceFirst_skip (s₀ t pat rep : String) (h : noDollar s₀)
    (hp : pat.data.head? = some '$') :
    replaceFirst (s₀ ++ t) pat rep = s₀ ++ replaceFirst t pat rep := by
  apply String.ext
  simp only [replaceFirst, String.data_append]
  exact replaceFirstAux_skip _ _ hp _ _ h

/-- String version of `replaceFirstAux_hit`. -/
theorem replaceFirst_hit (pat rest rep : String) (hp : pat.data ≠ []) :
    replaceFirst (pat ++ rest) pat rep = rep ++ rest := by
  apply String.ext
  simp only [replaceFirst, String.data_append]
  exact replaceFirstAux_hit _ _ _ hp

/-- Every character the decimal printer can emit is a digit character,
never `'$'`. -/
theorem mem_toDigitsCore10 : ∀ (fuel n : Nat) (acc : List Char) (c : Char),
    c ∈ Nat.toDigitsCore 10 fuel n acc → c ∈ acc ∨ ∃ m : Nat, m < 10 ∧ c = Nat.digitChar m := by
  intro fuel
  induction fuel with
  | zero => exact fun n acc c h => Or.inl h
  | succ f ih =>
    intro n acc c h
    have e : Nat.toDigitsCore 10 (f + 1) n acc
        = if n / 10 = 0 then Nat.digitChar (n % 10) :: acc
          else Nat.toDigitsCore 10 f (n / 10) (Nat.digitChar (n % 10) :: acc) := rfl
    rw [e] at h
    by_cases hz : n / 10 = 0
    · rw [if_pos hz] at h
      rcases List.mem_cons.mp h with he | hin
      · exact Or.inr ⟨n % 10, Nat.mod_lt _ (by decide), he⟩
      · exact Or.inl hin
    · rw [if_neg hz] at h
      rcases ih _ _ _ h with hin | hd
      · rcases List.mem_cons.mp hin with he | hin'
        · exact Or.inr ⟨n % 10, Nat.mod_lt _ (by decide), he⟩
        · exact Or.inl hin'
      · exact Or.inr hd

/-- The decimal rendering of a natural number contains no `'$'`. -/
theorem repr_noDollar (n : Nat) : noDollar (toString n) := by
  unfold noDollar
  intro hm
  have e : (toString n).data = Nat.toDigitsCore 10 (n + 1) n [] := rfl
  rw [e] at hm
  rcases mem_toDigitsCore10 (n + 1) n [] '$' hm with h | ⟨m, hm10, he⟩
  · simp at h
  · have : Nat.digitChar m ≠ '$' := by interval_cases m <;> decide
    exact this he.symm

/-- The full substitution chain on a canonical-shape template: each
placeholder is replaced in source order, and a `'$'`-free prefix is never
re-scanned, so the output is the literal segments interleaved with the
four substituted values. -/
theorem render_chain (s0 s1 s2 s3 s4 r1 r2 r3 r4 : String)
    (h0 : noDollar s0) (h1 : noDollar s1) (h2 : noDollar s2) (h3 : noDollar s3)
    (hr1 : noDollar r1) (hr2 : noDollar r2) (hr3 : noDollar r3) :
    replaceFirst
        (replaceFirst
          (replaceFirst
            (replaceFirst (tmplOf s0 s1 s2 s3 s4) "${major}" r1)
            "${minor}" r2)
          "${patch}" r3)
        "${prerelease}" r4
      = s0 ++ (r1 ++ (s1 ++ (r2 ++ (s2 ++ (r3 ++ (s3 ++ (r4 ++ s4))))))) := by
  unfold tmplOf
  rw [replaceFirst_skip _ _ _ _ h0 (by rfl), replaceFirst_hit _ _ _ (by decide)]
  rw [replaceFirst_skip _ _ _ _ h0 (by rfl), replaceFirst_skip _ _ _ _ hr1 (by rfl),
    replaceFirst_skip _ _ _ _ h1 (by rfl), replaceFirst_hit _ _ _ (by decide)]
  rw [replaceFirst_skip _ _ _ _ h0 (by rfl), replaceFirst_skip _ _ _ _ hr1 (by rfl),
    replaceFirst_skip _ _ _ _ h1 (by rfl), replaceFirst_skip _ _ _ _ hr2 (by rfl),
    replaceFirst_skip _ _ _ _ h2 (by rfl), replaceFirst_hit _ _ _ (by decide)]
  rw [replaceFirst_skip _ _ _ _ h0 (by rfl), replaceFirst_skip _ _ _ _ hr1 (by rfl),
    replaceFirst_skip _ _ _ _ h1 (by rfl), replaceFirst_skip _ _ _ _ hr2 (by rfl),
    replaceFirst_skip _ _ _ _ h2 (by rfl), replaceFirst_skip _ _ _ _ hr3 (by rfl),
    replaceFirst_skip _ _ _ _ h3 (by rfl), replaceFirst_hit _ _ _ (by decide)]

/-- Substring containment implies character membership. -/
theorem listContains_mem (pat : List Char) :
    ∀ s : List Char, listContains pat s = true → ∀ c ∈ pat, c ∈ s := by
  intro s
  induction s with
  | nil =>
    intro h c hc
    rw [listContains] at h
    rw [List.isEmpty_iff.mp h] at hc
    cases hc
  | cons a as ih =>
    intro h c hc
    rw [listContains] at h
    rcases Bool.or_eq_true _ _ |>.mp h with hpre | hrest
    · rcases List.isPrefixOf_iff_prefix.mp hpre with ⟨t, ht⟩
      rw [← ht]
      exact List.mem_append.mpr (Or.inl hc)
    · exact List.mem_cons_of_mem _ (ih hrest c hc)

/-- A `'$'`-free string contains none of the placeholder tokens. -/
theorem noDollar_hasPlaceholder (s : String) (h : noDollar s) : hasPlaceholder s = false := by
  unfold hasPlaceholder strContains
  have k : ∀ pat : String, '$' ∈ pat.data → listContains pat.data s.data = false := by
    intro pat hm
    cases hcon : listContains pat.data s.data
    · rfl
    · exact absurd (listContains_mem _ _ hcon '$' hm) h
  rw [k "${major}" (by decide), k "${minor}" (by decide), k "${patch}" (by decide),
    k "${prerelease}" (by decide)]
  rfl

/-- Freeness from `'$'` is preserved by append. -/
theorem noDollar_append (a b : String) (ha : noDollar a) (hb : noDollar b) :
    noDollar (a ++ b) := by
  unfold noDollar at *
  rw [String.data_append]
  intro h
  rcases List.mem_append.mp h with h' | h'
  · exact ha h'
  · exact hb h'

/-- On a canonical-shape template, each renderer's output is the literal
segments interleaved with the format's substituted field values. -/
theorem render_canonical_eq (s0 s1 s2 s3 s4 : String) (v : VersionRecord)
    (h0 : noDollar s0) (h1 : noDollar s1) (h2 : noDollar s2) (h3 : noDollar s3) :
    renderJava (tmplOf s0 s1 s2 s3 s4) v
      = s0 ++ (toString v.major ++ (s1 ++ (toString v.minor ++ (s2 ++ (toString v.patch ++ (s3 ++
          ((match v.prerelease with
            | some p => "\"" ++ p ++ "\""
            | none => "null") ++ s4)))))))
    ∧ renderObjc (tmplOf s0 s1 s2 s3 s4) v
      = s0 ++ ("@(" ++ toString v.major ++ ")" ++ (s1 ++ ("@(" ++ toString v.minor ++ ")"
          ++ (s2 ++ ("@(" ++ toString v.patch ++ ")" ++ (s3 ++
          ((match v.prerelease with
            | some p => "@\"" ++ p ++ "\""
            | none => "[NSNull null]") ++ s4)))))))
    ∧ renderCxx (tmplOf s0 s1 s2 s3 s4) v
      = s0 ++ (toString v.major ++ (s1 ++ (toString v.minor ++ (s2 ++ (toString v.patch ++ (s3 ++
          ((match v.prerelease with
            | some p => "\"" ++ p ++ "\""
            | none => "\"\"") ++ s4)))))))
    ∧ renderJs (tmplOf s0 s1 s2 s3 s4) v
      = s0 ++ (toString v.major ++ (s1 ++ (toString v.minor ++ (s2 ++ (toString v.patch ++ (s3 ++
          ((match v.prerelease with
            | some p => "'" ++ p ++ "'"
            | none => "null") ++ s4))))))) := by
  have hbox : ∀ n : Nat, noDollar ("@(" ++ toString n ++ ")") := fun n =>
    noDollar_append _ _ (noDollar_append _ _ (by decide) (repr_noDollar n)) (by decide)
  refine ⟨?_, ?_, ?_, ?_⟩
  · exact render_chain s0 s1 s2 s3 s4 _ _ _ _ h0 h1 h2 h3
      (repr_noDollar v.major) (repr_noDollar v.minor) (repr_noDollar v.patch)
  · exact render_chain s0 s1 s2 s3 s4 _ _ _ _ h0 h1 h2 h3
      (hbox v.major) (hbox v.minor) (hbox v.patch)
  · exact render_chain s0 s1 s2 s3 s4 _ _ _ _ h0 h1 h2 h3
      (repr_noDollar v.major) (repr_noDollar v.minor) (repr_noDollar v.patch)
  · exact render_chain s0 s1 s2 s3 s4 _ _ _ _ h0 h1 h2 h3
      (repr_noDollar v.major) (repr_noDollar v.minor) (repr_noDollar v.patch)

/-- C5: on a canonical-shape template, each renderer substitutes the
numeric fields in its format and, at the `prerelease` placeholder, its
format's quoted literal when a prerelease is present or its canonical
absent sentinel when it is not: `"p"`/`null` in the Java file,
`@"p"`/`[NSNull null]` in the Objective-C file, `"p"`/`""` in the C++
header, and `'p'`/`null` in the script-language file. -/
theorem render_prerelease_sentinels (s0 s1 s2 s3 s4 : String) (v : VersionRecord)
    (h0 : noDollar s0) (h1 : noDollar s1) (h2 : noDollar s2) (h3 : noDollar s3) :
    renderJava (tmplOf s0 s1 s2 s3 s4) v
      = s0 ++ (toString v.major ++ (s1 ++ (toString v.minor ++ (s2 ++ (toString v.patch ++ (s3 ++
          ((match v.prerelease with
            | some p => "\"" ++ p ++ "\""
            | none => "null") ++ s4)))))))
    ∧ renderObjc (tmplOf s0 s1 s2 s3 s4) v
      = s0 ++ ("@(" ++ toString v.major ++ ")" ++ (s1 ++ ("@(" ++ toString v.minor ++ ")"
          ++ (s2 ++ ("@(" ++ toString v.patch ++ ")" ++ (s3 ++
          ((match v.prerelease with
            | some p => "@\"" ++ p ++ "\""
            | none => "[NSNull null]") ++ s4)))))))
    ∧ renderCxx (tmplOf s0 s1 s2 s3 s4) v
      = s0 ++ (toString v.major ++ (s1 ++ (toString v.minor ++ (s2 ++ (toString v.patch ++ (s3 ++
          ((match v.prerelease with
            | some p => "\"" ++ p ++ "\""
            | none => "\"\"") ++ s4)))))))
    ∧ renderJs (tmplOf s0 s1 s2 s3 s4) v
      = s0 ++ (toString v.major ++ (s1 ++ (toString v.minor ++ (s2 ++ (toString v.patch ++ (s3 ++
          ((match v.prerelease with
            | some p => "'" ++ p ++ "'"
            | none => "null") ++ s4))))))) :=
  render_canonical_eq s0 s1 s2 s3 s4 v h0 h1 h2 h3

/-- Witness for C5 on a concrete template and the prerelease-absent
record: the sentinels land where the placeholder stood. -/
theorem render_prerelease_sentinels_witness :
    renderJava (tmplOf "v=" "." "." "-" ";") vOne = "v=1.0.0-null;"
    ∧ renderObjc (tmplOf "v=" "." "." "-" ";") vOne = "v=@(1).@(0).@(0)-[NSNull null];"
    ∧ renderCxx (tmplOf "v=" "." "." "-" ";") vOne = "v=1.0.0-\"\";"
    ∧ renderJs (tmplOf "v=" "." "." "-" ";") vOne = "v=1.0.0-null;" := by
  have h := render_prerelease_sentinels "v=" "." "." "-" ";" vOne
    (by decide) (by decide) (by decide) (by decide)
  exact ⟨h.1.trans rfl, h.2.1.trans rfl, h.2.2.1.trans rfl, h.2.2.2.trans rfl⟩

/-- C4 counterexample: the claim quantifies over every template string,
but JavaScript's `replace` with a string pattern rewrites only the first
occurrence, so a template holding a placeholder twice keeps the second
occurrence unreplaced. -/
theorem render_single_replace_cex :
    renderJava "${major}${major}" vOne = "1${major}"
    ∧ hasPlaceholder (renderJava "${major}${major}" vOne) = true := ⟨rfl, rfl⟩

/-- C4 amended: each renderer replaces only the first occurrence of each
placeholder token; on templates of the canonical shape — each token
occurring exactly once between `'$'`-free literal segments — and for
records whose prerelease (when present) is `'$'`-free, the rendered
output of all four renderers contains no unreplaced placeholder token. -/
theorem render_no_placeholder_amended (s0 s1 s2 s3 s4 : String) (v : VersionRecord)
    (h0 : noDollar s0) (h1 : noDollar s1) (h2 : noDollar s2) (h3 : noDollar s3)
    (h4 : noDollar s4) (hp : ∀ p, v.prerelease = some p → noDollar p) :
    hasPlaceholder (renderJava (tmplOf s0 s1 s2 s3 s4) v) = false
    ∧ hasPlaceholder (renderObjc (tmplOf s0 s1 s2 s3 s4) v) = false
    ∧ hasPlaceholder (renderCxx (tmplOf s0 s1 s2 s3 s4) v) = false
    ∧ hasPlaceholder (renderJs (tmplOf s0 s1 s2 s3 s4) v) = false := by
  have heq := render_canonical_eq s0 s1 s2 s3 s4 v h0 h1 h2 h3
  have hbox : ∀ n : Nat, noDollar ("@(" ++ toString n ++ ")") := fun n =>
    noDollar_append _ _ (noDollar_append _ _ (by decide) (repr_noDollar n)) (by decide)
  have hquoted : ∀ a b : String, noDollar a → noDollar b →
      ∀ p, v.prerelease = some p → noDollar (a ++ p ++ b) := fun a b ha hb p hpp =>
    noDollar_append _ _ (noDollar_append _ _ ha (hp p hpp)) hb
  refine ⟨?_, ?_, ?_, ?_⟩
  · rw [heq.1]
    refine noDollar_hasPlaceholder _ ?_
    refine noDollar_append _ _ h0 (noDollar_append _ _ (repr_noDollar _)
      (noDollar_append _ _ h1 (noDollar_append _ _ (repr_noDollar _)
        (noDollar_append _ _ h2 (noDollar_append _ _ (repr_noDollar _)
          (noDollar_append _ _ h3 (noDollar_append _ _ ?_ h4)))))))
    cases hpre : v.prerelease with
    | none => decide
    | some p => exact hquoted "\"" "\"" (by decide) (by decide) p hpre
  · rw [heq.2.1]
    refine noDollar_hasPlaceholder _ ?_
    refine noDollar_append _ _ h0 (noDollar_append _ _ (hbox _)
      (noDollar_append _ _ h1 (noDollar_append _ _ (hbox _)
        (noDollar_append _ _ h2 (noDollar_append _ _ (hbox _)
          (noDollar_append _ _ h3 (noDollar_append _ _ ?_ h4)))))))
    cases hpre : v.prerelease with
    | none => decide
    | some p => exact hquoted "@\"" "\"" (by decide) (by decide) p hpre
  · rw [heq.2.2.1]
    refine noDollar_hasPlaceholder _ ?_
    refine noDollar_append _ _ h0 (noDollar_append _ _ (repr_noDollar _)
      (noDollar_append _ _ h1 (noDollar_append _ _ (repr_noDollar _)
        (noDollar_append _ _ h2 (noDollar_append _ _ (repr_noDollar _)
          (noDollar_append _ _ h3 (noDollar_append _ _ ?_ h4)))))))
    cases hpre : v.prerelease with
    | none => decide
    | some p => exact hquoted "\"" "\"" (by decide) (by decide) p hpre
  · rw [heq.2.2.2]
    refine noDollar_hasPlaceholder _ ?_
    refine noDollar_append _ _ h0 (noDollar_append _ _ (repr_noDollar _)
      (noDollar_append _ _ h1 (noDollar_append _ _ (repr_noDollar _)
        (noDollar_append _ _ h2 (noDollar_append _ _ (repr_noDollar _)
          (noDollar_append _ _ h3 (noDollar_append _ _ ?_ h4)))))))
    cases hpre : v.prerelease with
    | none => decide
    | some p => exact hquoted "'" "'" (by decide) (by decide) p hpre

/-- Witness for C4 amended: on the concrete canonical template no output
of the four renderers keeps a placeholder, for a record carrying a
prerelease. -/
theorem render_no_placeholder_amended_witness :
    hasPlaceholder (renderJava (tmplOf "v=" "." "." "-" ";") ⟨"1.2.3-rc.1", 1, 2, 3, some "rc.1"⟩)
        = false
    ∧ hasPlaceholder (renderObjc (tmplOf "v=" "." "." "-" ";") ⟨"1.2.3-rc.1", 1, 2, 3, some "rc.1"⟩)
        = false
    ∧ hasPlaceholder (renderCxx (tmplOf "v=" "." "." "-" ";") ⟨"1.2.3-rc.1", 1, 2, 3, some "rc.1"⟩)
        = false
    ∧ hasPlaceholder (renderJs (tmplOf "v=" "." "." "-" ";") ⟨"1.2.3-rc.1", 1, 2, 3, some "rc.1"⟩)
        = false := by
  exact render_no_placeholder_amended "v=" "." "." "-" ";" ⟨"1.2.3-rc.1", 1, 2, 3, some "rc.1"⟩
    (by decide) (by decide) (by decide) (by decide) (by decide)
    (fun p hp => by cases hp; decide)

/-! ## Line-splitting lemmas for the gradle rewrite -/

/-- Splitting never produces the empty list of pieces. -/
theorem splitOnChar_ne_nil (c : Char) (l : List Char) : splitOnChar c l ≠ [] := by
  cases l with
  | nil => simp [splitOnChar]
  | cons x xs =>
    rw [splitOnChar]
    by_cases hx : x = c
    · simp [hx]
    · rw [if_neg hx]
      cases splitOnChar c xs <;> simp

/-- The separator never occurs inside a piece. -/
theorem splitOnChar_not_mem (c : Char) :
    ∀ l : List Char, ∀ p ∈ splitOnChar c l, c ∉ p := by
  intro l
  induction l with
  | nil =>
    intro p hp
    rw [splitOnChar] at hp
    rcases List.mem_singleton.mp hp with rfl
    simp
  | cons x xs ih =>
    intro p hp
    rw [splitOnChar] at hp
    by_cases hx : x = c
    · rw [if_pos hx] at hp
      rcases List.mem_cons.mp hp with rfl | hin
      · simp
      · exact ih p hin
    · rw [if_neg hx] at hp
      rcases hr : splitOnChar c xs with _ | ⟨h, t⟩
      · exact absurd hr (splitOnChar_ne_nil c xs)
      · rw [hr] at hp
        rcases List.mem_cons.mp hp with rfl | hin
        · intro hm
          rcases List.mem_cons.mp hm with rfl | hin'
          · exact hx rfl
          · exact ih h (hr ▸ List.mem_cons_self _ _) hin'
        · exact ih p (hr ▸ List.mem_cons_of_mem _ hin)

/-- A separator-free list splits into a single piece. -/
theorem splitOnChar_of_not_mem (c : Char) :
    ∀ l : List Char, c ∉ l → splitOnChar c l = [l] := by
  intro l
  induction l with
  | nil => intro _; rfl
  | cons x xs ih =>
    intro h
    rw [splitOnChar]
    rw [if_neg (fun e : x = c => h (e ▸ List.mem_cons_self x xs))]
    rw [ih (fun m => h (List.mem_cons_of_mem _ m))]

/-- Splitting at the first separator after a separator-free head. -/
theorem splitOnChar_append_cons (c : Char) :
    ∀ a b : List Char, c ∉ a → splitOnChar c (a ++ c :: b) = a :: splitOnChar c b := by
  intro a
  induction a with
  | nil =>
    intro b _
    show splitOnChar c (c :: b) = [] :: splitOnChar c b
    rw [splitOnChar, if_pos rfl]
  | cons x a' ih =>
    intro b h
    show splitOnChar c (x :: (a' ++ c :: b)) = (x :: a') :: splitOnChar c b
    rw [splitOnChar]
    rw [if_neg (fun e : x = c => h (e ▸ List.mem_cons_self x a'))]
    rw [ih b (fun m => h (List.mem_cons_of_mem _ m))]

/-- A string rebuilt from its character list is itself. -/
theorem string_mk_data (s : String) : String.mk s.data = s := rfl

/-- The function `splitLines` undoes `joinLines` on nonempty lists of newline-free
lines. -/
theorem splitLines_joinLines :
    ∀ ls : List String, ls ≠ [] → (∀ l ∈ ls, '\n' ∉ l.data) →
      splitLines (joinLines ls) = ls := by
  intro ls
  induction ls with
  | nil => intro h _; exact absurd rfl h
  | cons x t ih =>
    intro _ h
    cases t with
    | nil =>
      show splitLines x = [x]
      unfold splitLines
      rw [splitOnChar_of_not_mem '\n' x.data (h x (List.mem_cons_self _ _))]
      simp [string_mk_data]
    | cons y t' =>
      show splitLines (x ++ "\n" ++ joinLines (y :: t')) = x :: y :: t'
      unfold splitLines
      have hd : (x ++ "\n" ++ joinLines (y :: t')).data
          = x.data ++ '\n' :: (joinLines (y :: t')).data := by
        simp [String.data_append]
      rw [hd, splitOnChar_append_cons '\n' x.data _ (h x (List.mem_cons_self _ _))]
      have := ih (by simp) (fun l hl => h l (List.mem_cons_of_mem _ hl))
      unfold splitLines at this
      simp only [List.map, string_mk_data]
      rw [this]

/-- C2 counterexample: the claim says a properties file with no
`VERSION_NAME=` line makes propagation fail with `PropertiesUpdateError`
before verification.  In the code the shelljs `sed` reports code 0 when
the file exists, whether or not any line matched, so `setGradle` returns
normally with the file unchanged, the run completes without error, and
the drift surfaces only as the verification warning. -/
theorem setGradle_missing_line_cex :
    setGradle vOne fsNoVersionLine = Except.ok fsNoVersionLine
    ∧ (setReactNativeVersion "1.0.0" none "dry-run" fsNoVersionLine).2.isOk = true
    ∧ (setReactNativeVersion "1.0.0" none "dry-run" fsNoVersionLine).1.gradleProperties
        = some "FOO=bar"
    ∧ (setReactNativeVersion "1.0.0" none "dry-run" fsNoVersionLine).2.map
        PropagateInfo.warned = Except.ok true := ⟨rfl, rfl, rfl, rfl⟩

/-- C2 amended: `setGradle` throws only when the sed invocation itself
fails, i.e. when the properties file is missing; when the file exists it
never throws: every line starting with `VERSION_NAME=` is replaced by
`VERSION_NAME=<canonical version>` and all other lines (hence a file with
no such line) are left unchanged. -/
theorem setGradle_amended (v : VersionRecord) (fs : RepoFS)
    (hv : '\n' ∉ v.version.data) :
    (fs.gradleProperties = none →
      ∃ msg, setGradle v fs = Except.error (SetVersionError.gradleSedFailed msg))
    ∧ ∀ content, fs.gradleProperties = some content →
        setGradle v fs
            = Except.ok { fs with gradleProperties := some (sedVersionName v.version content) }
        ∧ splitLines (sedVersionName v.version content)
            = (splitLines content).map
                (fun l => if strStartsWith l "VERSION_NAME=" then "VERSION_NAME=" ++ v.version else l) := by
  constructor
  · intro hnone
    exact ⟨_, by rw [setGradle, hnone]⟩
  · intro content hsome
    constructor
    · rw [setGradle, hsome]
    · unfold sedVersionName
      apply splitLines_joinLines
      · intro hemp
        have := List.map_eq_nil_iff.mp hemp
        unfold splitLines at this
        exact splitOnChar_ne_nil '\n' content.data (List.map_eq_nil_iff.mp this)
      · intro l hl
        rcases List.mem_map.mp hl with ⟨l0, hl0, rfl⟩
        by_cases hs : strStartsWith l0 "VERSION_NAME=" = true
        · simp only [hs, if_true]
          rw [String.data_append]
          intro hm
          rcases List.mem_append.mp hm with hm' | hm'
          · revert hm'
            decide
          · exact hv hm'
        · simp only [hs]
          rw [if_neg (by simp at hs; simp [hs])]
          rcases List.mem_map.mp (by unfold splitLines at hl0; exact hl0)
            with ⟨p, hp, rfl⟩
          exact splitOnChar_not_mem '\n' content.data p hp

/-- Witness for C2 amended: a missing file throws, and a present file
with a `VERSION_NAME=` line is rewritten to the new version without
error. -/
theorem setGradle_amended_witness :
    (∃ msg, setGradle vOne fsNoGradle = Except.error (SetVersionError.gradleSedFailed msg))
    ∧ setGradle vOne fs0
        = Except.ok { fs0 with gradleProperties := some "VERSION_NAME=1.0.0" } := by
  constructor
  · exact (setGradle_amended vOne fsNoGradle (by decide)).1 rfl
  · exact ((setGradle_amended vOne fs0 (by decide)).2 "VERSION_NAME=0.74.0" rfl).1.trans rfl

/-! ## Verification-count lemmas -/

/-- The dot-wildcard matcher accepts an exact occurrence at the front. -/
theorem dotMatchHere_refl : ∀ p rest : List Char, dotMatchHere p (p ++ rest) = true := by
  intro p
  induction p with
  | nil => intro rest; rfl
  | cons c cs ih =>
    intro rest
    show dotMatchHere (c :: cs) (c :: (cs ++ rest)) = true
    simp [dotMatchHere, ih]

/-- A match survives prepending text (grep scans the whole line). -/
theorem dotMatch_append_left (pat : List Char) :
    ∀ t s : List Char, dotMatch pat s = true → dotMatch pat (t ++ s) = true := by
  intro t
  induction t with
  | nil => exact fun s h => h
  | cons c ct ih =>
    intro s h
    show dotMatch pat (c :: (ct ++ s)) = true
    rw [dotMatch]
    rw [ih s h]
    simp

/-- A literal substring occurrence is in particular a regex match: each
pattern character matches itself. -/
theorem dotMatch_of_listContains (pat : List Char) :
    ∀ s : List Char, listContains pat s = true → dotMatch pat s = true := by
  intro s
  induction s with
  | nil =>
    intro h
    rw [listContains] at h
    rw [List.isEmpty_iff.mp h]
    rfl
  | cons a as ih =>
    intro h
    rw [listContains] at h
    rw [dotMatch]
    rcases Bool.or_eq_true _ _ |>.mp h with hpre | hrest
    · rcases List.isPrefixOf_iff_prefix.mp hpre with ⟨t, ht⟩
      rw [← ht, dotMatchHere_refl]
      simp
    · rw [ih hrest]
      simp

/-- A changed line that literally contains the needle is selected by the
grep stage. -/
theorem grepSelects_of_strContains (needle l : String)
    (h : strContains l needle = true) : grepSelects needle l = true := by
  unfold grepSelects
  rw [String.data_append]
  exact dotMatch_append_left needle.data "> ".data l.data
    (dotMatch_of_listContains needle.data l.data h)

/-- Filtering with a weaker predicate keeps at least as many elements. -/
theorem length_filter_mono (p q : String → Bool) :
    ∀ l : List String, (∀ x ∈ l, p x = true → q x = true) →
      (l.filter p).length ≤ (l.filter q).length := by
  intro l
  induction l with
  | nil => intro _; exact Nat.le_refl 0
  | cons x t ih =>
    intro h
    have ht := ih (fun y hy => h y (List.mem_cons_of_mem _ hy))
    by_cases hp : p x = true
    · have hq := h x (List.mem_cons_self _ _) hp
      simp only [List.filter, hp, hq]
      exact Nat.succ_le_succ ht
    · rw [List.filter_cons_of_neg (by simpa using hp)]
      by_cases hq : q x = true
      · rw [List.filter_cons_of_pos (by simpa using hq)]
        exact Nat.le_trans ht (Nat.le_succ _)
      · rw [List.filter_cons_of_neg (by simpa using hq)]
        exact ht

/-- Per file pair, the literal count never exceeds the grep count. -/
theorem literalCountFile_le (before after : List String) (needle : String) :
    literalCountFile before after needle ≤ countMatchingChangedLines before after needle := by
  unfold literalCountFile countMatchingChangedLines
  exact length_filter_mono _ _ _
    (fun l _ h => grepSelects_of_strContains needle l h)

/-- Over the three verified files, the literal count never exceeds the
count the script computes. -/
theorem literalCount_le (before after : RepoFS) (needle : String) :
    literalCount before after needle ≤ verificationCount before after needle := by
  unfold literalCount verificationCount
  exact Nat.add_le_add (Nat.add_le_add (literalCountFile_le _ _ _) (literalCountFile_le _ _ _))
    (literalCountFile_le _ _ _)

/-- Inversion of a completed propagation run: once validation, parsing
and the four writes succeed, the result is determined by the
verification count. -/
theorem propagate_run (fs : RepoFS) (av : String)
    (deps : Option (List (String × String))) (bt : String) (b : BuildType)
    (ver : VersionRecord) (fs' : RepoFS)
    (hb : validateBuildType bt = Except.ok b)
    (hv : parseVersion av b = Except.ok ver)
    (hw : applyWrites ver deps fs = Except.ok fs') :
    (verificationCount fs fs' ver.version ≠ filesToValidate.length →
      setReactNativeVersion av deps bt fs
        = (fs', Except.ok ⟨templateDependencyVersions ver deps, true,
            warningMessages ver.version⟩))
    ∧ (verificationCount fs fs' ver.version = filesToValidate.length →
      setReactNativeVersion av deps bt fs
        = (fs', Except.ok ⟨templateDependencyVersions ver deps, false, []⟩)) := by
  have hw' := hw
  simp only [applyWrites] at hw'
  constructor
  · intro hcount
    simp only [setReactNativeVersion, hb, hv, hw']
    rw [if_pos hcount]
  · intro hcount
    simp only [setReactNativeVersion, hb, hv, hw']
    rw [if_neg (by simp [hcount])]

/-- C7: when a run reaches verification, a mismatching count produces
only a warning — the returned filesystem is the post-write state either
way (no rollback), the warning block names the three files expected to
change, the call returns normally, and the entry point exits with status
0 regardless of the verification outcome. -/
theorem propagate_nonfatal (fs : RepoFS) (av : String)
    (deps : Option (List (String × String))) (bt : String) (b : BuildType)
    (ver : VersionRecord) (fs' : RepoFS)
    (hb : validateBuildType bt = Except.ok b)
    (hv : parseVersion av b = Except.ok ver)
    (hw : applyWrites ver deps fs = Except.ok fs') :
    mainExitCode av deps bt fs = 0
    ∧ (setReactNativeVersion av deps bt fs).1 = fs'
    ∧ ∃ info, (setReactNativeVersion av deps bt fs).2 = Except.ok info
        ∧ (info.warned = true ↔ verificationCount fs fs' ver.version ≠ filesToValidate.length)
        ∧ (info.warned = false → info.warningEchoes = [])
        ∧ (info.warned = true →
            info.warningEchoes = warningMessages ver.version
            ∧ ∃ m ∈ info.warningEchoes,
                strContains m "packages/react-native/package.json" = true
                ∧ strContains m "packages/react-native/ReactAndroid/gradle.properties" = true
                ∧ strContains m "packages/react-native/template/package.json" = true) := by
  have hmsg : ∃ m ∈ warningMessages ver.version,
      strContains m "packages/react-native/package.json" = true
      ∧ strContains m "packages/react-native/ReactAndroid/gradle.properties" = true
      ∧ strContains m "packages/react-native/template/package.json" = true := by
    refine ⟨"Failed to update all the files: [" ++ String.intercalate ", " filesToValidate
      ++ "] must have versions in them", List.mem_cons_of_mem _ (List.mem_cons_self _ _), ?_⟩
    refine ⟨by decide, by decide, by decide⟩
  by_cases hc : verificationCount fs fs' ver.version = filesToValidate.length
  · have e := (propagate_run fs av deps bt b ver fs' hb hv hw).2 hc
    rw [e]
    refine ⟨by unfold mainExitCode; rw [e], rfl, ⟨_, rfl, ?_, fun _ => rfl, ?_⟩⟩
    · exact ⟨fun h => by simp at h, fun h => absurd hc h⟩
    · intro h
      simp at h
  · have e := (propagate_run fs av deps bt b ver fs' hb hv hw).1 hc
    rw [e]
    refine ⟨by unfold mainExitCode; rw [e], rfl, ⟨_, rfl, ?_, ?_, fun _ => ⟨rfl, hmsg⟩⟩⟩
    · exact ⟨fun _ => hc, fun _ => rfl⟩
    · intro h
      simp at h

/-- Witness for C7 at the spec's scenario A: a full dry-run propagation
from `fs0` exits with status 0 and leaves the written state in place. -/
theorem propagate_nonfatal_witness :
    mainExitCode "0.75.0" none "dry-run" fs0 = 0
    ∧ (setReactNativeVersion "0.75.0" none "dry-run" fs0).1 = fs0After := by
  have h := propagate_nonfatal fs0 "0.75.0" none "dry-run" BuildType.dryRun v075 fs0After
    rfl rfl rfl
  exact ⟨h.1, h.2.1⟩

/-- C1 counterexample: the claim reads the verification needle as literal
containment, but the version string reaches `grep` unquoted, so its dots
match any character.  From `fsRegexTrap` (library manifest already at
`0.75.0`) with override `some-lib ↦ 0x75y0`, exactly two changed lines
literally contain `0.75.0`, yet the changed dependency line `0x75y0`
also matches the pattern, so the script counts 3 and declares full
verification even though the literal count is 2, not 3. -/
theorem verification_regex_cex :
    (setReactNativeVersion "0.75.0" (some [("some-lib", "0x75y0")]) "dry-run" fsRegexTrap).2.map
        PropagateInfo.warned = Except.ok false
    ∧ literalCount fsRegexTrap
        (setReactNativeVersion "0.75.0" (some [("some-lib", "0x75y0")]) "dry-run" fsRegexTrap).1
        "0.75.0" = 2
    ∧ (2 : Nat) ≠ filesToValidate.length := ⟨rfl, rfl, by decide⟩

/-- C1 amended: verification diffs the three snapshotted files against
their post-write content and counts the changed lines matching the
canonical version string read as an unquoted regular expression (`.`
matching any character) — a count that dominates the count of lines
literally containing the version — and declares full verification (no
warning) exactly when that regex count equals the size of the verified
subset, which is 3. -/
theorem propagate_verification_amended (fs : RepoFS) (av : String)
    (deps : Option (List (String × String))) (bt : String) (b : BuildType)
    (ver : VersionRecord) (fs' : RepoFS)
    (hb : validateBuildType bt = Except.ok b)
    (hv : parseVersion av b = Except.ok ver)
    (hw : applyWrites ver deps fs = Except.ok fs') :
    filesToValidate.length = 3
    ∧ ((setReactNativeVersion av deps bt fs).2.map PropagateInfo.warned = Except.ok false
        ↔ verificationCount fs fs' ver.version = filesToValidate.length)
    ∧ literalCount fs fs' ver.version ≤ verificationCount fs fs' ver.version := by
  refine ⟨rfl, ?_, literalCount_le fs fs' ver.version⟩
  by_cases hc : verificationCount fs fs' ver.version = filesToValidate.length
  · rw [(propagate_run fs av deps bt b ver fs' hb hv hw).2 hc]
    simp [Except.map, hc]
  · rw [(propagate_run fs av deps bt b ver fs' hb hv hw).1 hc]
    simp [Except.map, hc]

/-- Witness for C1 amended: in the clean scenario-A run the regex count
is exactly 3 and no warning is emitted. -/
theorem propagate_verification_amended_witness :
    verificationCount fs0 fs0After v075.version = filesToValidate.length
    ∧ (setReactNativeVersion "0.75.0" none "dry-run" fs0).2.map PropagateInfo.warned
        = Except.ok false := by
  have h := propagate_verification_amended fs0 "0.75.0" none "dry-run" BuildType.dryRun
    v075 fs0After rfl rfl rfl
  exact ⟨by rfl, h.2.1.mpr (by rfl)⟩

end SetRNVersion
